import Mathlib

/-!
Verification of the session and context-window manager of the Wanderlust
`chatter` cog (`cogs/chatter/chatter.py`).

The definitions below are a shallow embedding of the Python source:
message logs are lists of records, the token counter
(`tiktoken.encoding_for_model(...).encode` in the source) is an abstract
function `tc : String → Nat`, the SQLite `messages` table is a finite map
keyed by timestamp (its declared primary key), and the OpenAI call is a
parameter describing the provider's response.
-/

namespace Wanderlust

/-- One entry of `ChatbotLogs.messages`: a dict with keys
`timestamp`, `role`, `content`, `username` (cf. `ChatbotLogs.add_message`). -/
structure LogMsg where
  timestamp : Nat
  role : String
  content : String
  username : Option String
deriving DecidableEq

/-- One message as sent to the completion API: a dict with keys
`role`, `content` and (for user turns) `name`
(cf. `ChatbotLogs._get_sanitized_messages`). -/
structure ApiMsg where
  role : String
  content : String
  name : Option String
deriving DecidableEq

/-- Body of the loop of `ChatbotLogs._get_sanitized_messages`: user turns keep
their `username` as the API `name` field, other turns carry no name. -/
def sanitizeOne (m : LogMsg) : ApiMsg :=
  if m.role = "user" then ⟨m.role, m.content, m.username⟩
  else ⟨m.role, m.content, none⟩

/-- `ChatbotLogs._get_sanitized_messages`. -/
def sanitizeMessages (log : List LogMsg) : List ApiMsg :=
  log.map sanitizeOne

/-- The window entry `{'role': 'system', 'content': system_prompt}`. -/
def systemApiMsg (systemPrompt : String) : ApiMsg :=
  ⟨"system", systemPrompt, none⟩

/-- The `for message in reversed(messages)` loop of
`ChatbotLogs._get_context` / `TempChatbot._get_context`: walk the remaining
turns newest-to-oldest (the argument list is already reversed), appending each
turn while the running token total stays within `context_size`; the first turn
that would push the total over the budget stops the walk. -/
def buildContext (tc : String → Nat) (context_size : Nat) :
    Nat → List ApiMsg → List ApiMsg
  | _, [] => []
  | tokens, m :: rest =>
    if tokens + tc m.content > context_size then []
    else m :: buildContext tc context_size (tokens + tc m.content) rest

/-- `ChatbotLogs._get_context`: reserve the system prompt and the most recent
turn, fill the middle greedily newest-to-oldest, and return
`[system] + context[::-1] + [last_message]` (for an empty log, just
`[system]`). The token counter `tc` stands for
`len(tiktoken.encoding_for_model(AI_MODEL).encode(·))`. -/
def getContext (tc : String → Nat) (system_prompt : String) (context_size : Nat)
    (log : List LogMsg) : List ApiMsg :=
  let messages := sanitizeMessages log
  match messages.getLast? with
  | none => [systemApiMsg system_prompt]
  | some last_message =>
    let tokens := tc system_prompt + tc last_message.content
    systemApiMsg system_prompt ::
      ((buildContext tc context_size tokens messages.dropLast.reverse).reverse
        ++ [last_message])

/-- `TempChatbot._get_context`: same walk over the in-memory `_context`
(already API-shaped), except the most recent turn is read with
`self._context[-1]`, which raises `IndexError` on an empty history —
modelled as `none`. -/
def tempGetContext (tc : String → Nat) (system_prompt : String)
    (context_size : Nat) (ctx : List ApiMsg) : Option (List ApiMsg) :=
  match ctx.getLast? with
  | none => none
  | some last_message =>
    let tokens := tc system_prompt + tc last_message.content
    some (systemApiMsg system_prompt ::
      ((buildContext tc context_size tokens ctx.dropLast.reverse).reverse
        ++ [last_message]))

/-- Total token count of a window: the token counter applied to the `content`
of every entry (the quantity `_get_context` accumulates). -/
def msgTokens (tc : String → Nat) (ms : List ApiMsg) : Nat :=
  (ms.map (fun m => tc m.content)).sum

/-- Python `s[:n]`: the first `n` characters of the string. -/
def pyTake (s : String) (n : Nat) : String :=
  ⟨s.data.take n⟩

/-- Lines 510–516 of `AIChatSession._get_completion`: `is_finished` is whether
the provider's finish reason is `'stop'`; text longer than 2000 characters is
replaced by `text[:1995] + '...'` and `is_finished` forced to `False`.
Returns the delivered text and the `stop` flag. -/
def processCompletion (text : String) (finish_reason : String) : String × Bool :=
  let is_finished := finish_reason = "stop"
  if text.length > 2000 then (pyTake text 1995 ++ "...", false)
  else (text, is_finished)

/-- `ChatbotLogs.add_message`: plain `self.messages.append({...})`. -/
def addMessage (messages : List LogMsg) (timestamp : Nat) (role content : String)
    (username : Option String) : List LogMsg :=
  messages ++ [⟨timestamp, role, content, username⟩]

/-- One row of the SQLite `messages` table
(`timestamp REAL PRIMARY KEY, profile_id, session_id, role, content, username`,
cf. `Chatter.__init_guilds`). -/
structure DBRow where
  timestamp : Nat
  profile_id : Nat
  session_id : Nat
  role : String
  content : String
  username : Option String
deriving DecidableEq

/-- The `messages` table as a map from its primary key (`timestamp`) to a row;
`INSERT OR REPLACE` on that key. -/
def upsert (db : Nat → Option DBRow) (key : Nat) (row : DBRow) :
    Nat → Option DBRow :=
  fun k => if k = key then some row else db k

/-- `ChatbotLogs.save`: `executemany("INSERT OR REPLACE INTO messages ...")`
over the whole in-memory message list, in order. -/
def saveMessages (profile_id session_id : Nat) (messages : List LogMsg)
    (db : Nat → Option DBRow) : Nat → Option DBRow :=
  messages.foldl
    (fun d m =>
      upsert d m.timestamp
        ⟨m.timestamp, profile_id, session_id, m.role, m.content, m.username⟩)
    db

/-- Python `s.rstrip()`: strip trailing whitespace. -/
def rstrip (s : String) : String :=
  ⟨(s.data.reverse.dropWhile Char.isWhitespace).reverse⟩

/-- Lines 485–486 of `AIChatSession._get_completion`: transliterate the
username (`unidecode`, kept abstract as `unidec`), keep only alphanumeric
characters, and strip trailing whitespace. -/
def sanitizeUsername (unidec : String → String) (username : String) : String :=
  rstrip ⟨(unidec username).data.filter Char.isAlphanum⟩

/-- One element of `response['choices']`. -/
structure Choice where
  content : String
  finish_reason : String
deriving DecidableEq

/-- Outcome of `openai.ChatCompletion.acreate`: either an exception /
falsy response (`err`) or a response with its choices and
`usage.total_tokens`. -/
inductive ApiResult where
  | err : ApiResult
  | ok (choices : List Choice) (total_tokens : Nat) : ApiResult
deriving DecidableEq

/-- The dict returned by `AIChatSession._get_completion` on success. -/
structure CompletionOut where
  content : String
  tokens_used : Nat
  stop : Bool
deriving DecidableEq

/-- `AIChatSession._get_completion` for a `CustomChatbot`, as a function of
the persisted log: the user turn is appended (timestamp `userTs`) *before*
the API call; an exception or an empty choice list aborts with no result
(the `raise` paths); on success the processed assistant turn is appended
(timestamp `asstTs`) and the result dict returned. -/
def getCompletion (unidec : String → String) (log : List LogMsg)
    (userTs asstTs : Nat) (content username : String) (api : ApiResult) :
    List LogMsg × Option CompletionOut :=
  let uname := sanitizeUsername unidec username
  let log1 := addMessage log userTs "user" content (some uname)
  match api with
  | .err => (log1, none)
  | .ok choices total_tokens =>
    match choices with
    | [] => (log1, none)
    | c :: _ =>
      let (text, is_finished) := processCompletion c.content c.finish_reason
      (addMessage log1 asstTs "assistant" text none,
        some ⟨text, total_tokens, is_finished⟩)

/-- `AIChatSession.check_blacklist`: `object_id in self.chatbot.blacklist`. -/
def checkBlacklist (blacklist : List Nat) (object_id : Nat) : Bool :=
  blacklist.contains object_id

/-- The guard of `Chatter.on_message` (lines 1215–1225): if the author or the
channel of the triggering message is blacklisted the handler returns at once,
otherwise the session handles the message (`handle`, left abstract, stands for
`session.handle_message`, the only code that can change the log). -/
def onMessage (blacklist : List Nat) (author_id channel_id : Nat)
    (handle : List LogMsg → List LogMsg) (log : List LogMsg) : List LogMsg :=
  if checkBlacklist blacklist author_id || checkBlacklist blacklist channel_id then
    log
  else handle log

/-- `ChatbotLogs.get_last_session_id`:
`SELECT MAX(session_id) FROM messages WHERE profile_id = ?`, with `or 0`
turning an empty result into `0`. The durable table is viewed as the list of
its rows. -/
def getLastSessionId (db : List DBRow) (profile_id : Nat) : Nat :=
  ((db.filter (fun r => decide (r.profile_id = profile_id))).map
    (fun r => r.session_id)).foldl max 0

/-- `ChatbotLogs.__load_messages`:
`SELECT * FROM messages WHERE profile_id = ? AND session_id = ?
ORDER BY timestamp ASC`. -/
def loadMessages (db : List DBRow) (profile_id session_id : Nat) : List LogMsg :=
  ((db.filter (fun r =>
      decide (r.profile_id = profile_id ∧ r.session_id = session_id))).mergeSort
    (fun a b => a.timestamp ≤ b.timestamp)).map
    (fun r => ⟨r.timestamp, r.role, r.content, r.username⟩)

/-- The state of a `ChatbotLogs` object: its `_session_id` and in-memory
`messages`. -/
structure Logs where
  session_id : Nat
  messages : List LogMsg
deriving DecidableEq

/-- `ChatbotLogs.__init__`: with `resume=True` reuse the last stored session
id, with `resume=False` advance to a fresh one; then load that session's
messages. -/
def mkChatbotLogs (db : List DBRow) (profile_id : Nat) (resume : Bool) : Logs :=
  let sid := if resume then getLastSessionId db profile_id
             else getLastSessionId db profile_id + 1
  ⟨sid, loadMessages db profile_id sid⟩

/-- The chatbot held by a live `AIChatSession`: a durable `CustomChatbot`
(profile id plus its `ChatbotLogs`) or a `TempChatbot`
(in-memory `_context` only). -/
inductive SessionBot where
  | custom (profile_id : Nat) (logs : Logs) : SessionBot
  | temp (context : List ApiMsg) : SessionBot
deriving DecidableEq

/-- The cog state `Chatter._chat_wipe` acts on: the durable `messages` table
and the `sessions` map (channel id → live session). -/
structure ChatterState where
  db : List DBRow
  sessions : Nat → Option SessionBot

/-- `Chatter._chat_wipe`: no session on the channel → error message, state
unchanged; a `CustomChatbot` session is replaced by
`CustomChatbot(..., resume=False)` (only `SELECT`s run — no row of the
`messages` table is written or deleted); a `TempChatbot` gets
`chatbot._context = []`. -/
def chatWipe (st : ChatterState) (channel_id : Nat) : ChatterState :=
  match st.sessions channel_id with
  | none => st
  | some (.custom pid _) =>
    { st with
      sessions := fun c =>
        if c = channel_id then some (.custom pid (mkChatbotLogs st.db pid false))
        else st.sessions c }
  | some (.temp _) =>
    { st with
      sessions := fun c =>
        if c = channel_id then some (.temp []) else st.sessions c }

/-! ## Helper lemmas -/

theorem sanitizeOne_content (m : LogMsg) : (sanitizeOne m).content = m.content := by
  unfold sanitizeOne
  split <;> rfl

theorem sanitizeMessages_length (log : List LogMsg) :
    (sanitizeMessages log).length = log.length := by
  simp [sanitizeMessages]

theorem sanitizeMessages_getLast? (log : List LogMsg) (lastLog : LogMsg)
    (h : log.getLast? = some lastLog) :
    (sanitizeMessages log).getLast? = some (sanitizeOne lastLog) := by
  rw [sanitizeMessages, List.getLast?_map, h]
  rfl

theorem getContext_eq (tc : String → Nat) (sys : String) (B : Nat)
    (log : List LogMsg) (lastLog : LogMsg) (h : log.getLast? = some lastLog) :
    getContext tc sys B log =
      systemApiMsg sys ::
        ((buildContext tc B (tc sys + tc lastLog.content)
            (sanitizeMessages log).dropLast.reverse).reverse
          ++ [sanitizeOne lastLog]) := by
  have h2 := sanitizeMessages_getLast? log lastLog h
  rw [getContext]
  simp only [h2, sanitizeOne_content]

theorem buildContext_sum_le (tc : String → Nat) (B : Nat) :
    ∀ (l : List ApiMsg) (tokens : Nat), tokens ≤ B →
      tokens + msgTokens tc (buildContext tc B tokens l) ≤ B
  | [], tokens, h => by simpa [buildContext, msgTokens]
  | m :: rest, tokens, h => by
    rw [buildContext]
    split
    · simpa [msgTokens]
    · rename_i hle
      have h2 : tokens + tc m.content ≤ B := by omega
      have h3 := buildContext_sum_le tc B rest (tokens + tc m.content) h2
      simp only [msgTokens, List.map_cons, List.sum_cons] at h3 ⊢
      omega

theorem buildContext_of_gt (tc : String → Nat) (B : Nat) (l : List ApiMsg)
    (tokens : Nat) (h : B < tokens) : buildContext tc B tokens l = [] := by
  cases l with
  | nil => rfl
  | cons m rest =>
    rw [buildContext, if_pos (by omega : tokens + tc m.content > B)]

theorem buildContext_isTake (tc : String → Nat) (B : Nat) :
    ∀ (l : List ApiMsg) (tokens : Nat), ∃ k, buildContext tc B tokens l = l.take k
  | [], tokens => ⟨0, rfl⟩
  | m :: rest, tokens => by
    rw [buildContext]
    split
    · exact ⟨0, rfl⟩
    · obtain ⟨k, hk⟩ := buildContext_isTake tc B rest (tokens + tc m.content)
      exact ⟨k + 1, by rw [hk]; rfl⟩

theorem buildContext_of_ones (tc : String → Nat) (B : Nat) :
    ∀ (l : List ApiMsg) (tokens : Nat), (∀ m ∈ l, tc m.content = 1) →
      buildContext tc B tokens l = l.take (B - tokens)
  | [], tokens, _ => by simp [buildContext]
  | m :: rest, tokens, h => by
    have hm : tc m.content = 1 := h m (by simp)
    rw [buildContext, hm]
    split
    · rename_i hgt
      have : B - tokens = 0 := by omega
      rw [this, List.take_zero]
    · rename_i hle
      have hrest : ∀ x ∈ rest, tc x.content = 1 := fun x hx => h x (by simp [hx])
      rw [buildContext_of_ones tc B rest (tokens + 1) hrest]
      have hlt : tokens < B := by omega
      have : B - tokens = (B - (tokens + 1)) + 1 := by omega
      rw [this, List.take_succ_cons]

theorem msgTokens_reverse (tc : String → Nat) (l : List ApiMsg) :
    msgTokens tc l.reverse = msgTokens tc l := by
  simp [msgTokens, List.map_reverse, List.sum_reverse]

/-! ## Claim theorems -/

/-- C1: for every persona with system prompt `sys` and context budget `B` and
every non-empty message log, the total token count of the window returned by
`ChatbotLogs._get_context` is at most `B`, except when the reserved cost of
the system prompt plus the most-recent turn alone already exceeds `B`, in
which case the window is exactly the system prompt and the most-recent turn
with no other history turn added. -/
theorem c1_budget_invariant (tc : String → Nat) (sys : String) (B : Nat)
    (log : List LogMsg) (lastLog : LogMsg) (h : log.getLast? = some lastLog) :
    (tc sys + tc lastLog.content ≤ B →
      msgTokens tc (getContext tc sys B log) ≤ B)
    ∧ (B < tc sys + tc lastLog.content →
      getContext tc sys B log = [systemApiMsg sys, sanitizeOne lastLog]) := by
  constructor
  · intro hle
    rw [getContext_eq tc sys B log lastLog h]
    have hb := buildContext_sum_le tc B
      ((sanitizeMessages log).dropLast.reverse) (tc sys + tc lastLog.content) hle
    simp only [msgTokens, List.map_cons, List.sum_cons, List.map_append,
      List.sum_append, List.map_reverse, List.sum_reverse, systemApiMsg,
      sanitizeOne_content, List.map_nil, List.sum_nil] at hb ⊢
    omega
  · intro hgt
    rw [getContext_eq tc sys B log lastLog h,
      buildContext_of_gt tc B _ _ hgt]
    rfl

/-- Witness for C1 on a concrete log of two turns. -/
theorem c1_budget_invariant_witness :
    ([⟨0, "user", "ab", some "u"⟩, ⟨1, "assistant", "cd", none⟩] : List LogMsg).getLast?
      = some ⟨1, "assistant", "cd", none⟩
    ∧ "s".length + "cd".length ≤ 10
    ∧ msgTokens String.length
        (getContext String.length "s" 10
          [⟨0, "user", "ab", some "u"⟩, ⟨1, "assistant", "cd", none⟩]) ≤ 10 :=
  ⟨by decide, by decide,
    (c1_budget_invariant String.length "s" 10
      [⟨0, "user", "ab", some "u"⟩, ⟨1, "assistant", "cd", none⟩]
      ⟨1, "assistant", "cd", none⟩ (by decide)).1 (by decide)⟩

/-- C5: for every non-empty log the built window is chronologically
ascending — the system prompt is first, the included history turns are a
final segment of the history in its original oldest-first order, and the
most-recent turn is last. -/
theorem c5_order_invariant (tc : String → Nat) (sys : String) (B : Nat)
    (log : List LogMsg) (lastLog : LogMsg) (h : log.getLast? = some lastLog) :
    ∃ excluded included,
      (sanitizeMessages log).dropLast = excluded ++ included
      ∧ getContext tc sys B log
        = systemApiMsg sys :: (included ++ [sanitizeOne lastLog]) := by
  obtain ⟨k, hk⟩ := buildContext_isTake tc B
    ((sanitizeMessages log).dropLast.reverse) (tc sys + tc lastLog.content)
  refine ⟨((sanitizeMessages log).dropLast.reverse.drop k).reverse,
    ((sanitizeMessages log).dropLast.reverse.take k).reverse, ?_, ?_⟩
  · rw [← List.reverse_append, List.take_append_drop, List.reverse_reverse]
  · rw [getContext_eq tc sys B log lastLog h, hk]

/-- Witness for C5 on a concrete log of three turns. -/
theorem c5_order_invariant_witness :
    ([⟨0, "user", "ab", some "u"⟩, ⟨1, "assistant", "cd", none⟩,
        ⟨2, "user", "ef", some "u"⟩] : List LogMsg).getLast?
      = some ⟨2, "user", "ef", some "u"⟩
    ∧ ∃ excluded included,
      (sanitizeMessages
          [⟨0, "user", "ab", some "u"⟩, ⟨1, "assistant", "cd", none⟩,
            ⟨2, "user", "ef", some "u"⟩]).dropLast = excluded ++ included
      ∧ getContext String.length "s" 10
          [⟨0, "user", "ab", some "u"⟩, ⟨1, "assistant", "cd", none⟩,
            ⟨2, "user", "ef", some "u"⟩]
        = systemApiMsg "s"
            :: (included ++ [sanitizeOne ⟨2, "user", "ef", some "u"⟩]) :=
  ⟨by decide,
    c5_order_invariant String.length "s" 10
      [⟨0, "user", "ab", some "u"⟩, ⟨1, "assistant", "cd", none⟩,
        ⟨2, "user", "ef", some "u"⟩] ⟨2, "user", "ef", some "u"⟩ (by decide)⟩

/-- C4: the history turns between the reserved system prompt and the
most-recent turn come from the single newest-to-oldest walk; with every turn
costing 1 token, a system prompt costing 1 token and a budget `B < N`, the
selected context is exactly the `B - 2` most recent eligible turns (in
chronological order), never an arbitrary subset. -/
theorem c4_recency_priority (tc : String → Nat) (sys : String) (B : Nat)
    (log : List LogMsg) (lastLog : LogMsg) (h : log.getLast? = some lastLog)
    (hones : ∀ m ∈ log, tc m.content = 1) (hsys : tc sys = 1)
    (hB2 : 2 ≤ B) (hBN : B < log.length) :
    getContext tc sys B log
      = systemApiMsg sys ::
          (((sanitizeMessages log).dropLast.reverse.take (B - 2)).reverse
            ++ [sanitizeOne lastLog])
    ∧ ((sanitizeMessages log).dropLast.reverse.take (B - 2)).length = B - 2 := by
  have hlast : tc lastLog.content = 1 :=
    hones lastLog (List.mem_of_mem_getLast? h)
  have hrev1 : ∀ m ∈ (sanitizeMessages log).dropLast.reverse,
      tc m.content = 1 := by
    intro m hm
    rw [List.mem_reverse] at hm
    have hm2 : m ∈ sanitizeMessages log := List.dropLast_subset _ hm
    rw [sanitizeMessages, List.mem_map] at hm2
    obtain ⟨m0, hm0, rfl⟩ := hm2
    rw [sanitizeOne_content]
    exact hones m0 hm0
  constructor
  · rw [getContext_eq tc sys B log lastLog h,
      buildContext_of_ones tc B _ _ hrev1, hsys, hlast]
  · rw [List.length_take, List.length_reverse, List.length_dropLast,
      sanitizeMessages_length]
    omega

/-- Witness for C4: four turns of 1 token each, budget 3 → exactly the one
most recent eligible turn is kept. -/
theorem c4_recency_priority_witness :
    ([⟨0, "user", "a", some "u"⟩, ⟨1, "assistant", "b", none⟩,
        ⟨2, "user", "c", some "u"⟩, ⟨3, "user", "d", some "u"⟩] : List LogMsg).getLast?
      = some ⟨3, "user", "d", some "u"⟩
    ∧ getContext String.length "s" 3
        [⟨0, "user", "a", some "u"⟩, ⟨1, "assistant", "b", none⟩,
          ⟨2, "user", "c", some "u"⟩, ⟨3, "user", "d", some "u"⟩]
      = systemApiMsg "s" ::
          (((sanitizeMessages
              [⟨0, "user", "a", some "u"⟩, ⟨1, "assistant", "b", none⟩,
                ⟨2, "user", "c", some "u"⟩,
                ⟨3, "user", "d", some "u"⟩]).dropLast.reverse.take (3 - 2)).reverse
            ++ [sanitizeOne ⟨3, "user", "d", some "u"⟩]) :=
  ⟨by decide,
    (c4_recency_priority String.length "s" 3
      [⟨0, "user", "a", some "u"⟩, ⟨1, "assistant", "b", none⟩,
        ⟨2, "user", "c", some "u"⟩, ⟨3, "user", "d", some "u"⟩]
      ⟨3, "user", "d", some "u"⟩ (by decide) (by decide) (by decide)
      (by decide) (by decide)).1⟩

/-- C7 counterexample: with a system prompt of 4 tokens, a budget of 2 and a
non-empty log, the window is not the one-element list `[system]` — the
most-recent turn is still appended. -/
theorem c7_counterexample :
    getContext String.length "aaaa" 2 [⟨0, "user", "x", some "u"⟩]
      ≠ [systemApiMsg "aaaa"]
    ∧ getContext String.length "aaaa" 2 [⟨0, "user", "x", some "u"⟩]
      = [systemApiMsg "aaaa", ⟨"user", "x", some "u"⟩] := by
  decide

/-- C7 amended: if the system prompt alone exceeds the budget, the window is
`[system]` only when the log is empty; for a non-empty log the most-recent
turn is still included and the window is exactly
`[system, most-recent]` with no history turn added. -/
theorem c7_degenerate_window (tc : String → Nat) (sys : String) (B : Nat)
    (log : List LogMsg) (h : B < tc sys) :
    (log = [] → getContext tc sys B log = [systemApiMsg sys])
    ∧ (∀ lastLog, log.getLast? = some lastLog →
        getContext tc sys B log = [systemApiMsg sys, sanitizeOne lastLog]) := by
  constructor
  · rintro rfl
    rfl
  · intro lastLog hl
    rw [getContext_eq tc sys B log lastLog hl,
      buildContext_of_gt tc B _ _ (by omega)]
    rfl

/-- Witness for C7's amended statement at the counterexample's input. -/
theorem c7_degenerate_window_witness :
    2 < "aaaa".length
    ∧ ([⟨0, "user", "x", some "u"⟩] : List LogMsg).getLast?
        = some ⟨0, "user", "x", some "u"⟩
    ∧ getContext String.length "aaaa" 2 [⟨0, "user", "x", some "u"⟩]
      = [systemApiMsg "aaaa", sanitizeOne ⟨0, "user", "x", some "u"⟩] :=
  ⟨by decide, by decide,
    (c7_degenerate_window String.length "aaaa" 2
      [⟨0, "user", "x", some "u"⟩] (by decide)).2
      ⟨0, "user", "x", some "u"⟩ (by decide)⟩

/-- C10: over an empty history, `ChatbotLogs._get_context` is total and
returns exactly `[system]`, while `TempChatbot._get_context` is undefined
(`self._context[-1]` on an empty list); with at least one recorded message it
is defined. -/
theorem c10_empty_history (tc : String → Nat) (sys : String) (B : Nat) :
    getContext tc sys B [] = [systemApiMsg sys]
    ∧ tempGetContext tc sys B [] = none
    ∧ ∀ ctx : List ApiMsg, ctx ≠ [] →
        (tempGetContext tc sys B ctx).isSome = true := by
  refine ⟨rfl, rfl, ?_⟩
  intro ctx hne
  have h := List.getLast?_isSome.mpr hne
  rw [Option.isSome_iff_exists] at h
  obtain ⟨a, ha⟩ := h
  unfold tempGetContext
  simp only [ha, Option.isSome_some]

/-- Witness for C10 with a one-message temporary history. -/
theorem c10_empty_history_witness :
    ([⟨"user", "hi", some "u"⟩] : List ApiMsg) ≠ []
    ∧ (tempGetContext String.length "s" 5 [⟨"user", "hi", some "u"⟩]).isSome
        = true :=
  ⟨by decide,
    (c10_empty_history String.length "s" 5).2.2 [⟨"user", "hi", some "u"⟩]
      (by decide)⟩

/-- C2 counterexample: the window builder does no blacklist filtering, so a
turn from a blocked author already present in the log does appear in the
window built for another participant, and the window differs from the one
built over the log with blocked turns removed. -/
theorem c2_counterexample :
    sanitizeOne ⟨0, "user", "evil", some "Eve"⟩ ∈
      getContext String.length "s" 100
        [⟨0, "user", "evil", some "Eve"⟩, ⟨1, "user", "hi", some "Bob"⟩]
    ∧ getContext String.length "s" 100
        [⟨0, "user", "evil", some "Eve"⟩, ⟨1, "user", "hi", some "Bob"⟩]
      ≠ getContext String.length "s" 100
          ([⟨0, "user", "evil", some "Eve"⟩,
            ⟨1, "user", "hi", some "Bob"⟩].filter
            (fun m => !(m.username == some "Eve"))) := by
  decide

/-- C2 amended: block enforcement happens only at the reply trigger —
`Chatter.on_message` returns at once when the triggering author or channel is
blacklisted, so no handling occurs and the log is unchanged (hence no blocked
message is ever appended through that path). -/
theorem c2_block_at_trigger (blacklist : List Nat) (author_id channel_id : Nat)
    (handle : List LogMsg → List LogMsg) (log : List LogMsg)
    (h : author_id ∈ blacklist ∨ channel_id ∈ blacklist) :
    onMessage blacklist author_id channel_id handle log = log := by
  rw [onMessage, if_pos]
  simp only [checkBlacklist, List.contains, Bool.or_eq_true, List.elem_iff]
  exact h

/-- Witness for C2's amended statement: a blacklisted author triggers no
log change even though the handler would append. -/
theorem c2_block_at_trigger_witness :
    ((5 : Nat) ∈ [5] ∨ (9 : Nat) ∈ [5])
    ∧ onMessage [5] 5 9
        (fun l => l ++ [⟨0, "user", "x", some "u"⟩]) [] = [] :=
  ⟨Or.inl (by decide),
    c2_block_at_trigger [5] 5 9
      (fun l => l ++ [⟨0, "user", "x", some "u"⟩]) [] (Or.inl (by decide))⟩

/-- C3 counterexample: a failed completion call does change the log's turn
count — the triggering user turn is appended before the API call, so an
exchange that fails with a provider error grows an empty log to one turn. -/
theorem c3_counterexample :
    ((getCompletion (fun s => s) [] 5 7 "hello" "Bob" ApiResult.err).1).length
      ≠ ([] : List LogMsg).length := by
  decide

/-- C3 amended: on provider failure or an empty choice list the exchange
aborts with no result and no assistant turn, but the triggering user turn has
already been appended, so the log is the old log plus exactly that one user
turn. -/
theorem c3_failure_keeps_user_turn (unidec : String → String)
    (log : List LogMsg) (userTs asstTs : Nat) (content username : String)
    (api : ApiResult) (h : api = .err ∨ ∃ t, api = .ok [] t) :
    (getCompletion unidec log userTs asstTs content username api).2 = none
    ∧ (getCompletion unidec log userTs asstTs content username api).1
      = log ++ [⟨userTs, "user", content,
          some (sanitizeUsername unidec username)⟩] := by
  rcases h with rfl | ⟨t, rfl⟩ <;> exact ⟨rfl, rfl⟩

/-- Witness for C3's amended statement at the counterexample's input. -/
theorem c3_failure_keeps_user_turn_witness :
    (ApiResult.err = ApiResult.err ∨ ∃ t, ApiResult.err = ApiResult.ok [] t)
    ∧ (getCompletion (fun s => s) [] 5 7 "hello" "Bob" ApiResult.err).2 = none
    ∧ (getCompletion (fun s => s) [] 5 7 "hello" "Bob" ApiResult.err).1
      = [] ++ [⟨5, "user", "hello",
          some (sanitizeUsername (fun s => s) "Bob")⟩] :=
  ⟨Or.inl rfl,
    c3_failure_keeps_user_turn (fun s => s) [] 5 7 "hello" "Bob"
      ApiResult.err (Or.inl rfl)⟩

/-- C6 counterexample: `ChatbotLogs.add_message` is a plain list append, so
two appends with the same timestamp leave the in-memory log with two turns,
not in the state of a single append of the second turn. -/
theorem c6_counterexample :
    addMessage (addMessage [] 5 "user" "a" (some "u")) 5 "user" "b" (some "u")
      ≠ addMessage [] 5 "user" "b" (some "u") := by
  decide

/-- C6 amended: the durable `messages` table is keyed by timestamp with
`INSERT OR REPLACE`, so saving after two same-timestamp appends leaves the
stored state identical to saving after a single append of the second turn
(the latter wins) — only the in-memory list keeps both entries. -/
theorem c6_durable_append_idempotent (profile_id session_id : Nat)
    (log : List LogMsg) (ts : Nat) (role1 content1 role2 content2 : String)
    (user1 user2 : Option String) (db : Nat → Option DBRow) :
    saveMessages profile_id session_id
        (addMessage (addMessage log ts role1 content1 user1) ts role2 content2 user2) db
      = saveMessages profile_id session_id
          (addMessage log ts role2 content2 user2) db := by
  unfold saveMessages addMessage
  rw [List.append_assoc, List.foldl_append, List.foldl_append]
  funext k
  simp only [List.foldl_cons, List.foldl_nil, List.cons_append,
    List.nil_append]
  by_cases hk : k = ts <;> simp [upsert, hk]

/-- C8: if the provider's finish reason is not `stop` or the returned text is
longer than the 2000-character platform limit, the result is marked not-`stop`
and the delivered text never exceeds the limit; otherwise the text is
delivered unmodified with `stop` true. -/
theorem c8_truncation (text finish_reason : String) :
    ((finish_reason ≠ "stop" ∨ 2000 < text.length) →
      (processCompletion text finish_reason).2 = false
      ∧ (processCompletion text finish_reason).1.length ≤ 2000)
    ∧ (finish_reason = "stop" ∧ text.length ≤ 2000 →
      processCompletion text finish_reason = (text, true)) := by
  constructor
  · intro h
    unfold processCompletion
    by_cases hlen : text.length > 2000
    · rw [if_pos hlen]
      refine ⟨rfl, ?_⟩
      have hd : (pyTake text 1995 ++ "...").length
          = (text.data.take 1995).length + 3 := by
        rw [String.length_append]
        rfl
      rw [hd, List.length_take]
      omega
    · rw [if_neg hlen]
      have hfr : finish_reason ≠ "stop" := by
        rcases h with h | h
        · exact h
        · omega
      constructor
      · simp [hfr]
      · show text.length ≤ 2000
        omega
  · rintro ⟨hfr, hlen⟩
    unfold processCompletion
    rw [if_neg (by omega)]
    simp [hfr]

/-- Witness for C8: a response cut off by the provider is marked truncated
and stays within the platform limit; a clean response passes unmodified. -/
theorem c8_truncation_witness :
    ("length" ≠ "stop" ∨ 2000 < "hello".length)
    ∧ (processCompletion "hello" "length").2 = false
    ∧ (processCompletion "hello" "length").1.length ≤ 2000
    ∧ processCompletion "hi" "stop" = ("hi", true) :=
  ⟨Or.inl (by decide),
    ((c8_truncation "hello" "length").1 (Or.inl (by decide))).1,
    ((c8_truncation "hello" "length").1 (Or.inl (by decide))).2,
    (c8_truncation "hi" "stop").2 ⟨rfl, by decide⟩⟩

theorem init_le_foldl_max : ∀ (l : List Nat) (init : Nat),
    init ≤ l.foldl max init
  | [], _ => le_refl _
  | b :: rest, init =>
    le_trans (le_max_left _ _) (init_le_foldl_max rest (max init b))

theorem le_foldl_max : ∀ (l : List Nat) (init a : Nat), a ∈ l →
    a ≤ l.foldl max init
  | [], _, _, h => absurd h (List.not_mem_nil _)
  | b :: rest, init, a, h => by
    rcases List.mem_cons.mp h with rfl | h2
    · exact le_trans (le_max_right init a) (init_le_foldl_max rest _)
    · exact le_foldl_max rest (max init b) a h2

theorem le_getLastSessionId (db : List DBRow) (profile_id : Nat) (r : DBRow)
    (hr : r ∈ db) (hpid : r.profile_id = profile_id) :
    r.session_id ≤ getLastSessionId db profile_id := by
  unfold getLastSessionId
  refine le_foldl_max _ _ _ ?_
  refine List.mem_map_of_mem _ ?_
  rw [List.mem_filter]
  exact ⟨hr, by simp [hpid]⟩

theorem loadMessages_fresh (db : List DBRow) (profile_id : Nat) :
    loadMessages db profile_id (getLastSessionId db profile_id + 1) = [] := by
  unfold loadMessages
  have hf : db.filter (fun r =>
      decide (r.profile_id = profile_id
        ∧ r.session_id = getLastSessionId db profile_id + 1)) = [] := by
    rw [List.filter_eq_nil_iff]
    intro r hr
    simp only [decide_eq_true_eq, not_and]
    intro hpid
    have := le_getLastSessionId db profile_id r hr hpid
    omega
  rw [hf]
  simp

theorem mkChatbotLogs_fresh (db : List DBRow) (profile_id : Nat) :
    mkChatbotLogs db profile_id false
      = ⟨getLastSessionId db profile_id + 1, []⟩ := by
  simp [mkChatbotLogs, loadMessages_fresh]

/-- C9: from an active session, `wipe` on a durable chatbot deletes nothing
from the durable message table (every old turn stays queryable) and replaces
the live session with a fresh one whose session id is one past the last
stored one and whose loaded window is empty; on an ephemeral chatbot it only
clears the in-memory window. Other channels' sessions are untouched. -/
theorem c9_wipe_preserves_history (st : ChatterState) (channel_id : Nat) :
    (∀ pid logs, st.sessions channel_id = some (.custom pid logs) →
      (chatWipe st channel_id).db = st.db
      ∧ (chatWipe st channel_id).sessions channel_id
          = some (.custom pid ⟨getLastSessionId st.db pid + 1, []⟩)
      ∧ (∀ sid, loadMessages (chatWipe st channel_id).db pid sid
          = loadMessages st.db pid sid)
      ∧ (∀ c, c ≠ channel_id →
          (chatWipe st channel_id).sessions c = st.sessions c))
    ∧ (∀ ctx, st.sessions channel_id = some (.temp ctx) →
      (chatWipe st channel_id).db = st.db
      ∧ (chatWipe st channel_id).sessions channel_id = some (.temp [])
      ∧ (∀ c, c ≠ channel_id →
          (chatWipe st channel_id).sessions c = st.sessions c)) := by
  constructor
  · intro pid logs hc
    unfold chatWipe
    rw [hc]
    refine ⟨rfl, ?_, fun sid => rfl, fun c hcne => ?_⟩
    · simp [mkChatbotLogs_fresh]
    · simp [hcne]
  · intro ctx hc
    unfold chatWipe
    rw [hc]
    exact ⟨rfl, by simp, fun c hcne => by simp [hcne]⟩

/-- Witness for C9: a store with three rows of profile 1 across sessions 0–2;
wiping the channel keeps the table intact and attaches session 3, empty. -/
theorem c9_wipe_preserves_history_witness :
    (ChatterState.mk
        [⟨0, 1, 0, "user", "a", some "u"⟩, ⟨1, 1, 2, "assistant", "b", none⟩,
          ⟨2, 1, 1, "user", "c", some "u"⟩]
        (fun c => if c = 7 then
          some (.custom 1 ⟨2, [⟨1, "assistant", "b", none⟩]⟩) else none)).sessions 7
      = some (.custom 1 ⟨2, [⟨1, "assistant", "b", none⟩]⟩)
    ∧ (chatWipe
        (ChatterState.mk
          [⟨0, 1, 0, "user", "a", some "u"⟩, ⟨1, 1, 2, "assistant", "b", none⟩,
            ⟨2, 1, 1, "user", "c", some "u"⟩]
          (fun c => if c = 7 then
            some (.custom 1 ⟨2, [⟨1, "assistant", "b", none⟩]⟩) else none)) 7).db
      = [⟨0, 1, 0, "user", "a", some "u"⟩, ⟨1, 1, 2, "assistant", "b", none⟩,
          ⟨2, 1, 1, "user", "c", some "u"⟩]
    ∧ (chatWipe
        (ChatterState.mk
          [⟨0, 1, 0, "user", "a", some "u"⟩, ⟨1, 1, 2, "assistant", "b", none⟩,
            ⟨2, 1, 1, "user", "c", some "u"⟩]
          (fun c => if c = 7 then
            some (.custom 1 ⟨2, [⟨1, "assistant", "b", none⟩]⟩) else none)) 7).sessions 7
      = some (.custom 1 ⟨3, []⟩) :=
  ⟨rfl,
    ((c9_wipe_preserves_history
        (ChatterState.mk
          [⟨0, 1, 0, "user", "a", some "u"⟩, ⟨1, 1, 2, "assistant", "b", none⟩,
            ⟨2, 1, 1, "user", "c", some "u"⟩]
          (fun c => if c = 7 then
            some (.custom 1 ⟨2, [⟨1, "assistant", "b", none⟩]⟩) else none)) 7).1
      1 ⟨2, [⟨1, "assistant", "b", none⟩]⟩ rfl).1,
    ((c9_wipe_preserves_history
        (ChatterState.mk
          [⟨0, 1, 0, "user", "a", some "u"⟩, ⟨1, 1, 2, "assistant", "b", none⟩,
            ⟨2, 1, 1, "user", "c", some "u"⟩]
          (fun c => if c = 7 then
            some (.custom 1 ⟨2, [⟨1, "assistant", "b", none⟩]⟩) else none)) 7).1
      1 ⟨2, [⟨1, "assistant", "b", none⟩]⟩ rfl).2.1⟩

end Wanderlust
